import Mathlib

set_option autoImplicit false

/-!
A shallow embedding of `src/create_ng1_wrapper.ts`.

JavaScript values are modelled by `JSVal` (with `undef` standing for
`undefined`, so that reading an absent object property yields `JSVal.undef`).
DOM event listeners are identified by the order in which their closures are
allocated (`Nat` ids); an element's registered listeners form a list of
(event type, listener id) pairs, with `addEventListener` and
`removeEventListener` following DOM semantics (adding an already registered
pair is a no-op, removal erases one pair).  JavaScript `Map` objects and
plain string-keyed objects are association lists updated by `mapSet`
(replace the value of an existing key in place, otherwise append).
-/

namespace Ng1Wrapper

/-- A JavaScript value, as far as the wrapper inspects one; `undef` models
`undefined`, which is also what reading an absent property yields. -/
inductive JSVal where
  | undef
  | null
  | bool (b : Bool)
  | num (n : Int)
  | str (s : String)
  | obj (id : Nat)
  deriving DecidableEq, Repr

/-- JavaScript truthiness of a `JSVal`, as tested by `if (newValue)`. -/
def JSVal.truthy : JSVal → Bool
  | .undef => false
  | .null => false
  | .bool b => b
  | .num n => n != 0
  | .str s => s != ""
  | .obj _ => true

/-- A DOM event: its type string and its `detail` property
(`JSVal.undef` when the event carries no detail field). -/
structure Event where
  eventType : String
  detail : JSVal
  deriving DecidableEq, Repr

/-- `isCustomEvent` from the source: `(e as CustomEvent).detail !== undefined`. -/
def isCustomEvent (e : Event) : Bool :=
  e.detail != JSVal.undef

/-- The `AngularJSLocals` interface: `$event` (field `event` here) is the raw
event; `detail` is an optional field, `none` when the key is absent. -/
structure AngularJSLocals where
  event : Event
  detail : Option JSVal
  deriving DecidableEq, Repr

/-- The locals record built by the closure that
`Ng1WrapperController.createEventListener` returns, when an event `e` is
delivered: start from `{$event: e}` and add `detail` when `isCustomEvent(e)`. -/
def createEventListenerLocals (e : Event) : AngularJSLocals :=
  let locals : AngularJSLocals := { event := e, detail := none }
  if isCustomEvent e then { locals with detail := some e.detail } else locals

/-- The property-input setter installed with `Object.defineProperty` on the
controller prototype: `set(newValue)` forwards onto the custom element's
same-named property only when `newValue` is truthy.  The custom element is
modelled by its property table. -/
def inputSetter (customElement : String → JSVal) (property : String) (newValue : JSVal) :
    String → JSVal :=
  if newValue.truthy then fun p => if p = property then newValue else customElement p
  else customElement

/-- `Map.prototype.set`, and likewise assignment to a string-keyed object
property: replace the value of an existing key in place, otherwise append. -/
def mapSet {β : Type} : List (String × β) → String → β → List (String × β)
  | [], k, v => [(k, v)]
  | (k', v') :: rest, k, v =>
      if k' = k then (k, v) :: rest else (k', v') :: mapSet rest k v

/-- The `bindings` object built by `createNg1Wrapper`: every resolved input
is assigned the optional one-way tag, then every resolved output is assigned
the optional callback-expression tag. -/
def mkBindings (propertyInputs propertyOutputs : List String) : List (String × String) :=
  let b := propertyInputs.foldl (fun b input => mapSet b input "<?") []
  propertyOutputs.foldl (fun b output => mapSet b output "&?") b

/-- The plain-data part of the returned `angular.IComponentOptions`: the
bindings object and the template string.  The controller class is modelled
by the lifecycle functions below. -/
structure ComponentOptions where
  bindings : List (String × String)
  template : String
  deriving DecidableEq, Repr

/-- `createNg1Wrapper`: resolve the component's input and output property
names (either resolution may throw, modelled by `Except`; nothing is caught
locally), then build the descriptor. -/
def createNg1Wrapper (customElementSelector : String)
    (inputsResolution outputsResolution : Except String (List String)) :
    Except String ComponentOptions :=
  match inputsResolution with
  | Except.error e => Except.error e
  | Except.ok propertyInputs =>
    match outputsResolution with
    | Except.error e => Except.error e
    | Except.ok propertyOutputs =>
      Except.ok
        { bindings := mkBindings propertyInputs propertyOutputs,
          template := "<" ++ customElementSelector ++ "></" ++ customElementSelector ++ ">" }

/-- The mutable state of one `Ng1WrapperController` instance:
`eventListeners` is the controller's `Map<string, EventListener>` registry,
`elementListeners` the (event type, listener) pairs currently registered on
the wrapped custom element, and `nextListenerId` a counter giving a fresh
identity to each closure `createEventListener` returns. -/
structure CtrlState where
  eventListeners : List (String × Nat)
  elementListeners : List (String × Nat)
  nextListenerId : Nat
  deriving DecidableEq, Repr

/-- DOM `addEventListener`: registering an identical (type, listener) pair
again is a no-op; otherwise the pair is appended. -/
def addEventListener (ls : List (String × Nat)) (name : String) (l : Nat) :
    List (String × Nat) :=
  if (name, l) ∈ ls then ls else ls ++ [(name, l)]

/-- DOM `removeEventListener`: erase the (type, listener) pair. -/
def removeEventListener (ls : List (String × Nat)) (name : String) (l : Nat) :
    List (String × Nat) :=
  ls.erase (name, l)

/-- One iteration of the `$onInit` loop body: allocate the listener closure,
record it in the `eventListeners` map, register it on the element. -/
def onInitStep (st : CtrlState) (output : String) : CtrlState :=
  let eventListener := st.nextListenerId
  { eventListeners := mapSet st.eventListeners output eventListener,
    elementListeners := addEventListener st.elementListeners output eventListener,
    nextListenerId := eventListener + 1 }

/-- `$onInit`: for each declared output property name, attach a listener and
record it. -/
def onInit (propertyOutputs : List String) (st : CtrlState) : CtrlState :=
  propertyOutputs.foldl onInitStep st

/-- `$onDestroy`: for each entry of the `eventListeners` map, remove that
listener from the element.  The map itself is not modified. -/
def onDestroy (st : CtrlState) : CtrlState :=
  { st with
    elementListeners :=
      st.eventListeners.foldl
        (fun ls entry => removeEventListener ls entry.1 entry.2) st.elementListeners }

/-- The state a freshly constructed instance starts from:
`eventListeners = new Map()`, nothing yet registered on the element. -/
def initialCtrlState : CtrlState :=
  { eventListeners := [], elementListeners := [], nextListenerId := 0 }

/-- The listeners that fire when the element dispatches an event of the given
type: every registered pair whose type matches. -/
def firedListeners (ls : List (String × Nat)) (eventType : String) : List Nat :=
  (ls.filter (fun p => p.1 == eventType)).map (fun p => p.2)

/-- The wrapper's host element as the constructor sees it: its current CSS
display value, and the result of `querySelector(customElementSelector)` on
its rendered markup (`none` when no node matches). -/
structure Host where
  display : Option String
  queryResult : Option Nat
  deriving DecidableEq, Repr

/-- The message of the error thrown when the custom element is not found. -/
def noElementError (customElementSelector : String) : String :=
  "No custom element (" ++ customElementSelector ++ ") found.  ¯_(ツ)_/¯"

/-- The controller constructor: set `display: inline-block` on the host
element, then locate the custom element inside it; throw if no node matches,
otherwise start from the fresh state with an empty listener registry. -/
def construct (customElementSelector : String) (host : Host) :
    Host × Except String CtrlState :=
  let host' := { host with display := some "inline-block" }
  match host'.queryResult with
  | some _ => (host', Except.ok initialCtrlState)
  | none => (host', Except.error (noElementError customElementSelector))

/-- Helper for stating what `$onInit` appends: the listeners created for the
given outputs when the next fresh closure id is `c`. -/
def attachList : List String → Nat → List (String × Nat)
  | [], _ => []
  | o :: os, c => (o, c) :: attachList os (c + 1)

/-- C1: the locals record passed to the bound expression holds the raw event
under `$event`, holds `detail` (bound to the event's detail payload) exactly
when the event carries a detail field, and for a plain event without a detail
field is exactly the one-field record with the event and no `detail` key. -/
theorem createEventListener_locals_correct (e : Event) :
    (createEventListenerLocals e).event = e ∧
    ((createEventListenerLocals e).detail.isSome = true ↔ e.detail ≠ JSVal.undef) ∧
    (e.detail ≠ JSVal.undef → (createEventListenerLocals e).detail = some e.detail) ∧
    (e.detail = JSVal.undef →
      createEventListenerLocals e = { event := e, detail := none }) := by
  unfold createEventListenerLocals isCustomEvent
  by_cases h : e.detail = JSVal.undef <;> simp [h]

/-- Witness for C1 at a structured event with payload `7` and a plain event. -/
theorem createEventListener_locals_correct_witness :
    (createEventListenerLocals { eventType := "save", detail := JSVal.num 7 }).detail =
      some (JSVal.num 7) ∧
    createEventListenerLocals { eventType := "plain", detail := JSVal.undef } =
      { event := { eventType := "plain", detail := JSVal.undef }, detail := none } :=
  ⟨(createEventListener_locals_correct _).2.2.1 (by decide),
   (createEventListener_locals_correct _).2.2.2 rfl⟩

/-- C2: assigning a falsy value through a generated input accessor leaves the
underlying element's properties unchanged; assigning a truthy value sets the
same-named property to exactly that value (and touches no other property). -/
theorem inputSetter_correct (customElement : String → JSVal) (property : String)
    (newValue : JSVal) :
    (newValue.truthy = false → inputSetter customElement property newValue = customElement) ∧
    (newValue.truthy = true →
      inputSetter customElement property newValue property = newValue ∧
      ∀ p, p ≠ property → inputSetter customElement property newValue p = customElement p) := by
  constructor
  · intro h; simp [inputSetter, h]
  · intro h
    refine ⟨by simp [inputSetter, h], fun p hp => ?_⟩
    simp [inputSetter, h, hp]

/-- Witness for C2: a falsy assignment (`0`) is dropped, a truthy one (`5`)
lands on the element. -/
theorem inputSetter_correct_witness :
    inputSetter (fun _ => JSVal.undef) "value" (JSVal.num 0) = (fun _ => JSVal.undef) ∧
    inputSetter (fun _ => JSVal.undef) "value" (JSVal.num 5) "value" = JSVal.num 5 :=
  ⟨(inputSetter_correct (fun _ => JSVal.undef) "value" (JSVal.num 0)).1 rfl,
   ((inputSetter_correct (fun _ => JSVal.undef) "value" (JSVal.num 5)).2 rfl).1⟩

/-- C3 counterexample: when the resolver yields the same name `x` as both an
input and an output (N = M = 1), the bindings object has one entry, not
N + M = 2, and the input `x` is not mapped to the one-way tag. -/
theorem mkBindings_collision_counterexample :
    (mkBindings ["x"] ["x"]).length ≠ 1 + 1 ∧
    List.lookup "x" (mkBindings ["x"] ["x"]) ≠ some "<?" := by
  decide

/-- C4 counterexample: after `$onInit` with one output `save` followed by
`$onDestroy`, the listener has been removed from the element but the
`eventListeners` registry still holds its entry — it is not cleared. -/
theorem onDestroy_registry_not_cleared_counterexample :
    (onDestroy (onInit ["save"] initialCtrlState)).elementListeners = [] ∧
    (onDestroy (onInit ["save"] initialCtrlState)).eventListeners = [("save", 0)] ∧
    (onDestroy (onInit ["save"] initialCtrlState)).eventListeners ≠ [] := by
  decide

/-- C5 counterexample: with the output name `save` declared twice, `$onInit`
attaches two listener closures but the registry only remembers the second, so
after `$onDestroy` the first listener is still registered and still fires on a
`save` event. -/
theorem onDestroy_duplicate_outputs_counterexample :
    (onDestroy (onInit ["save", "save"] initialCtrlState)).elementListeners = [("save", 0)] ∧
    firedListeners
      ((onDestroy (onInit ["save", "save"] initialCtrlState)).elementListeners) "save" ≠ [] := by
  decide

/-- C9 counterexample: with the output name `save` declared twice, `$onInit`
attaches two listeners for the event type `save`, not exactly one. -/
theorem onInit_duplicate_outputs_counterexample :
    ((onInit ["save", "save"] initialCtrlState).elementListeners.filter
      (fun p => p.1 == "save")).length = 2 ∧
    ((onInit ["save", "save"] initialCtrlState).elementListeners.filter
      (fun p => p.1 == "save")).length ≠ 1 := by
  decide

/-- C6: when `querySelector` finds no node for the selector, the constructor
throws the descriptive element-not-found error; the host is otherwise
untouched and no controller state is produced, so no listener is attached. -/
theorem construct_no_element (customElementSelector : String) (host : Host)
    (h : host.queryResult = none) :
    construct customElementSelector host =
      ({ host with display := some "inline-block" },
       Except.error (noElementError customElementSelector)) := by
  simp [construct, h]

/-- Witness for C6 at a host whose markup contains no matching node. -/
theorem construct_no_element_witness :
    construct "my-el" { display := none, queryResult := none } =
      ({ display := some "inline-block", queryResult := none },
       Except.error (noElementError "my-el")) :=
  construct_no_element "my-el" { display := none, queryResult := none } rfl

/-- C7: the template produced by `createNg1Wrapper` is exactly one opening and
one closing tag of the given selector with nothing else, for every selector. -/
theorem createNg1Wrapper_template (customElementSelector : String)
    (inputsResolution outputsResolution : Except String (List String))
    (opts : ComponentOptions)
    (h : createNg1Wrapper customElementSelector inputsResolution outputsResolution =
      Except.ok opts) :
    opts.template = "<" ++ customElementSelector ++ "></" ++ customElementSelector ++ ">" := by
  cases inputsResolution with
  | error e => exact absurd h (by simp [createNg1Wrapper])
  | ok propertyInputs =>
    cases outputsResolution with
    | error e => exact absurd h (by simp [createNg1Wrapper])
    | ok propertyOutputs =>
      simp only [createNg1Wrapper, Except.ok.injEq] at h
      rw [← h]

/-- Witness for C7 at selector `my-el` with empty input and output lists. -/
theorem createNg1Wrapper_template_witness :
    ComponentOptions.template
        { bindings := mkBindings [] [], template := "<my-el></my-el>" } =
      "<" ++ "my-el" ++ "></" ++ "my-el" ++ ">" :=
  createNg1Wrapper_template "my-el" (Except.ok []) (Except.ok [])
    { bindings := mkBindings [] [], template := "<my-el></my-el>" } rfl

/-- C8: when either metadata resolution throws, `createNg1Wrapper` propagates
that error (nothing is caught locally) and no descriptor is produced. -/
theorem createNg1Wrapper_resolver_failure (customElementSelector : String) (e : String)
    (inputsResolution outputsResolution : Except String (List String)) :
    (inputsResolution = Except.error e →
      createNg1Wrapper customElementSelector inputsResolution outputsResolution =
        Except.error e) ∧
    (outputsResolution = Except.error e →
      ∀ propertyInputs, inputsResolution = Except.ok propertyInputs →
      createNg1Wrapper customElementSelector inputsResolution outputsResolution =
        Except.error e) := by
  constructor
  · rintro rfl; rfl
  · rintro rfl propertyInputs rfl; rfl

/-- Witness for C8: a failing resolution on either side aborts wrapping with
the resolver's own error. -/
theorem createNg1Wrapper_resolver_failure_witness :
    createNg1Wrapper "my-el" (Except.error "no factory") (Except.ok []) =
      Except.error "no factory" ∧
    createNg1Wrapper "my-el" (Except.ok []) (Except.error "no factory") =
      Except.error "no factory" :=
  ⟨(createNg1Wrapper_resolver_failure "my-el" "no factory" _ _).1 rfl,
   (createNg1Wrapper_resolver_failure "my-el" "no factory" _ _).2 rfl [] rfl⟩

/-- C10: every construction — also one that fails because the selector matches
no node — first sets the host element's display style to `inline-block`; the
style mutation is not rolled back by the element-not-found failure. -/
theorem construct_sets_display (customElementSelector : String) (host : Host) :
    ((construct customElementSelector host).1.display = some "inline-block") ∧
    (host.queryResult = none →
      (construct customElementSelector host).2 =
        Except.error (noElementError customElementSelector)) := by
  constructor
  · cases hq : host.queryResult <;> simp [construct, hq]
  · intro h; simp [construct, h]

/-- A `mapSet` on a key absent from the association list appends the entry. -/
theorem mapSet_append_of_fresh {β : Type} (m : List (String × β)) (k : String) (v : β)
    (h : ∀ p ∈ m, p.1 ≠ k) : mapSet m k v = m ++ [(k, v)] := by
  induction m with
  | nil => rfl
  | cons q rest ih =>
    obtain ⟨k', v'⟩ := q
    have hq : k' ≠ k := h (k', v') (by simp)
    simp only [mapSet, if_neg hq, List.cons_append, List.cons.injEq, true_and]
    exact ih fun p hp => h p (by simp [hp])

/-- Folding `mapSet` with a fixed tag over pairwise-fresh keys appends one
entry per key, in order. -/
theorem foldl_mapSet_fresh {β : Type} (l : List String) (tag : β) :
    ∀ m : List (String × β), l.Nodup → (∀ x ∈ l, ∀ p ∈ m, p.1 ≠ x) →
    l.foldl (fun b x => mapSet b x tag) m = m ++ l.map (fun x => (x, tag)) := by
  induction l with
  | nil => intro m _ _; simp
  | cons x xs ih =>
    intro m hnd hf
    simp only [List.foldl_cons, List.map_cons]
    rw [mapSet_append_of_fresh m x tag (hf x (by simp))]
    rw [ih (m ++ [(x, tag)]) (List.nodup_cons.1 hnd).2 ?_]
    · simp
    · intro y hy p hp
      rcases List.mem_append.1 hp with hp | hp
      · exact hf y (by simp [hy]) p hp
      · have hx : x ∉ xs := (List.nodup_cons.1 hnd).1
        have hpe : p = (x, tag) := by simpa using hp
        rw [hpe]
        show x ≠ y
        intro hxy
        exact hx (hxy ▸ hy)

/-- Under pairwise-distinct names, the bindings object is literally the list
of inputs tagged optional-one-way followed by the outputs tagged
optional-callback. -/
theorem mkBindings_eq_of_nodup (propertyInputs propertyOutputs : List String)
    (h : (propertyInputs ++ propertyOutputs).Nodup) :
    mkBindings propertyInputs propertyOutputs =
      propertyInputs.map (fun x => (x, "<?")) ++
        propertyOutputs.map (fun x => (x, "&?")) := by
  obtain ⟨hi, ho, hdisj⟩ := List.nodup_append.1 h
  unfold mkBindings
  rw [foldl_mapSet_fresh propertyInputs "<?" [] hi (by simp)]
  rw [foldl_mapSet_fresh propertyOutputs "&?" _ ho ?_]
  · simp
  · intro x hx p hp
    simp only [List.nil_append, List.mem_map] at hp
    obtain ⟨y, hy, rfl⟩ := hp
    intro hyx
    exact hdisj (hyx ▸ hy) hx

/-- Looking a member key up in a constant-tagged map gives the tag. -/
theorem lookup_map_tag {β : Type} (l : List String) (tag : β) (x : String) (hx : x ∈ l) :
    List.lookup x (l.map (fun y => (y, tag))) = some tag := by
  induction l with
  | nil => simp at hx
  | cons y ys ih =>
    simp only [List.map_cons, List.lookup]
    by_cases h : x = y
    · simp [h]
    · have hb : (x == y) = false := beq_false_of_ne h
      rw [hb]
      exact ih ((List.mem_cons.1 hx).resolve_left h)

/-- Lookup skips an initial segment whose keys all differ from the key
sought. -/
theorem lookup_append_of_forall_ne {β : Type} (x : String) (a b : List (String × β))
    (h : ∀ p ∈ a, p.1 ≠ x) : List.lookup x (a ++ b) = List.lookup x b := by
  induction a with
  | nil => rfl
  | cons q rest ih =>
    have hq : (x == q.1) = false := beq_false_of_ne fun hx => h q (by simp) hx.symm
    obtain ⟨k, v⟩ := q
    simp only [List.cons_append, List.lookup]
    rw [show (x == k) = false from hq]
    exact ih fun p hp => h p (by simp [hp])

/-- Lookup finds in the left part first. -/
theorem lookup_append_of_some {β : Type} (x : String) (a b : List (String × β)) (v : β)
    (h : List.lookup x a = some v) : List.lookup x (a ++ b) = some v := by
  induction a with
  | nil => simp [List.lookup] at h
  | cons q rest ih =>
    obtain ⟨k, w⟩ := q
    simp only [List.lookup] at h
    simp only [List.cons_append, List.lookup]
    cases hb : (x == k) with
    | true => rw [hb] at h; exact h
    | false => rw [hb] at h; exact ih h

/-- Every listener id generated by `attachList` is at least the start id. -/
theorem attachList_snd_ge (os : List String) (c : Nat) :
    ∀ p ∈ attachList os c, c ≤ p.2 := by
  induction os generalizing c with
  | nil => simp [attachList]
  | cons o os ih =>
    intro p hp
    rcases List.mem_cons.1 hp with rfl | hp
    · simp
    · exact Nat.le_of_succ_le (ih (c + 1) p hp)

/-- Every listener id generated by `attachList` is below start id plus count. -/
theorem attachList_snd_lt (os : List String) (c : Nat) :
    ∀ p ∈ attachList os c, p.2 < c + os.length := by
  induction os generalizing c with
  | nil => simp [attachList]
  | cons o os ih =>
    intro p hp
    rcases List.mem_cons.1 hp with rfl | hp
    · simp
    · have := ih (c + 1) p hp
      simp only [List.length_cons]
      omega

/-- The pairs generated by `attachList` are pairwise distinct. -/
theorem attachList_nodup (os : List String) (c : Nat) : (attachList os c).Nodup := by
  induction os generalizing c with
  | nil => simp [attachList]
  | cons o os ih =>
    simp only [attachList, List.nodup_cons]
    refine ⟨fun hmem => ?_, ih (c + 1)⟩
    have := attachList_snd_ge os (c + 1) (o, c) hmem
    omega

/-- No generated pair matches an event type not among the outputs. -/
theorem attachList_filter_of_not_mem (os : List String) (c : Nat) (name : String)
    (h : name ∉ os) : (attachList os c).filter (fun p => p.1 == name) = [] := by
  induction os generalizing c with
  | nil => rfl
  | cons o os ih =>
    have ho : (o == name) = false := beq_false_of_ne fun ho => h (by simp [ho.symm])
    simp only [attachList, List.filter_cons, ho]
    exact ih (c + 1) fun hm => h (by simp [hm])

/-- With pairwise-distinct outputs, exactly one generated pair matches each
declared output name. -/
theorem attachList_filter_length (os : List String) (c : Nat) (name : String)
    (hnd : os.Nodup) (hm : name ∈ os) :
    ((attachList os c).filter (fun p => p.1 == name)).length = 1 := by
  induction os generalizing c with
  | nil => simp at hm
  | cons o os ih =>
    simp only [attachList, List.filter_cons]
    by_cases h : o = name
    · subst h
      have hno : o ∉ os := (List.nodup_cons.1 hnd).1
      simp [attachList_filter_of_not_mem os (c + 1) o hno]
    · have hb : (o == name) = false := beq_false_of_ne h
      simp only [hb, Bool.false_eq_true, if_false]
      exact ih (c + 1) (List.nodup_cons.1 hnd).2
        ((List.mem_cons.1 hm).resolve_left fun he => h he.symm)

/-- Every declared output name can be looked up among the generated pairs,
and the found listener is one of the generated ones. -/
theorem attachList_lookup (os : List String) (c : Nat) (name : String) (hm : name ∈ os) :
    ∃ l, List.lookup name (attachList os c) = some l ∧ (name, l) ∈ attachList os c := by
  induction os generalizing c with
  | nil => simp at hm
  | cons o os ih =>
    by_cases h : name = o
    · subst h
      exact ⟨c, by simp [attachList, List.lookup], by simp [attachList]⟩
    · have hb : (name == o) = false := beq_false_of_ne h
      obtain ⟨l, hl, hmem⟩ := ih (c + 1) ((List.mem_cons.1 hm).resolve_left h)
      refine ⟨l, ?_, by simp [attachList, hmem]⟩
      simp only [attachList, List.lookup, hb]
      exact hl

/-- What `$onInit` does to the element's listeners: under the freshness
invariant on closure ids, it appends exactly the fresh listeners, and bumps
the id counter by the number of outputs. -/
theorem onInit_elementListeners (propertyOutputs : List String) :
    ∀ st : CtrlState, (∀ p ∈ st.elementListeners, p.2 < st.nextListenerId) →
    (onInit propertyOutputs st).elementListeners =
      st.elementListeners ++ attachList propertyOutputs st.nextListenerId ∧
    (onInit propertyOutputs st).nextListenerId =
      st.nextListenerId + propertyOutputs.length := by
  induction propertyOutputs with
  | nil => intro st _; simp [onInit, attachList]
  | cons o os ih =>
    intro st h
    have hnotmem : (o, st.nextListenerId) ∉ st.elementListeners := fun hmem =>
      absurd (h _ hmem) (by simp)
    have hadd : (onInitStep st o).elementListeners =
        st.elementListeners ++ [(o, st.nextListenerId)] := by
      simp [onInitStep, addEventListener, hnotmem]
    have hnext : (onInitStep st o).nextListenerId = st.nextListenerId + 1 := rfl
    have hinv : ∀ p ∈ (onInitStep st o).elementListeners,
        p.2 < (onInitStep st o).nextListenerId := by
      rw [hadd, hnext]
      intro p hp
      rcases List.mem_append.1 hp with hp | hp
      · exact Nat.lt_succ_of_lt (h p hp)
      · have : p = (o, st.nextListenerId) := by simpa using hp
        rw [this]
        exact Nat.lt_succ_self _
    obtain ⟨h1, h2⟩ := ih (onInitStep st o) hinv
    have hstep : onInit (o :: os) st = onInit os (onInitStep st o) := rfl
    constructor
    · rw [hstep, h1, hadd, hnext]
      simp [attachList, List.append_assoc]
    · rw [hstep, h2, hnext, List.length_cons]
      omega

/-- What `$onInit` does to the `eventListeners` registry when the output
names are pairwise distinct and fresh for the registry: it appends exactly
the fresh listeners, keyed by their output names. -/
theorem onInit_eventListeners (propertyOutputs : List String) :
    ∀ st : CtrlState, propertyOutputs.Nodup →
    (∀ o ∈ propertyOutputs, ∀ p ∈ st.eventListeners, p.1 ≠ o) →
    (onInit propertyOutputs st).eventListeners =
      st.eventListeners ++ attachList propertyOutputs st.nextListenerId := by
  induction propertyOutputs with
  | nil => intro st _ _; simp [onInit, attachList]
  | cons o os ih =>
    intro st hnd hf
    have hset : (onInitStep st o).eventListeners =
        st.eventListeners ++ [(o, st.nextListenerId)] :=
      mapSet_append_of_fresh _ _ _ (hf o (by simp))
    have hstep : onInit (o :: os) st = onInit os (onInitStep st o) := rfl
    rw [hstep, ih (onInitStep st o) (List.nodup_cons.1 hnd).2 ?_, hset]
    · have hnext : (onInitStep st o).nextListenerId = st.nextListenerId + 1 := rfl
      rw [hnext]
      simp [attachList, List.append_assoc]
    · intro o' ho' p hp
      rw [hset] at hp
      rcases List.mem_append.1 hp with hp | hp
      · exact hf o' (by simp [ho']) p hp
      · have hpe : p = (o, st.nextListenerId) := by simpa using hp
        rw [hpe]
        show o ≠ o'
        intro ho
        exact (List.nodup_cons.1 hnd).1 (ho ▸ ho')

/-- The `$onDestroy` fold only ever removes listeners from the element. -/
theorem mem_destroyFold (ps : List (String × Nat)) :
    ∀ (xs : List (String × Nat)) (a : String × Nat),
    a ∈ ps.foldl (fun ls entry => removeEventListener ls entry.1 entry.2) xs → a ∈ xs := by
  induction ps with
  | nil => intro xs a h; simpa using h
  | cons q ps ih =>
    intro xs a h
    simp only [List.foldl_cons] at h
    have h' := ih _ a h
    simp only [removeEventListener] at h'
    exact List.mem_of_mem_erase h'

/-- When the element's listeners are pairwise distinct, every entry of the
registry that the `$onDestroy` fold walks over is gone afterwards. -/
theorem not_mem_destroyFold (ps : List (String × Nat)) :
    ∀ (xs : List (String × Nat)) (p : String × Nat), xs.Nodup → p ∈ ps →
    p ∉ ps.foldl (fun ls entry => removeEventListener ls entry.1 entry.2) xs := by
  induction ps with
  | nil => intro xs p _ h; simp at h
  | cons q ps ih =>
    intro xs p hnd hp hmem
    simp only [List.foldl_cons] at hmem
    rcases List.mem_cons.1 hp with rfl | hp
    · have h1 := mem_destroyFold ps _ p hmem
      simp only [removeEventListener, Prod.mk.eta] at h1
      exact ((List.Nodup.mem_erase_iff hnd).1 h1).1 rfl
    · refine ih _ p ?_ hp hmem
      simp only [removeEventListener]
      exact hnd.erase (q.1, q.2)

/-- Folding removal of a pairwise-distinct listener list over itself empties
it. -/
theorem destroyFold_self (l : List (String × Nat)) (hnd : l.Nodup) :
    l.foldl (fun ls entry => removeEventListener ls entry.1 entry.2) l = [] := by
  induction l with
  | nil => rfl
  | cons p ps ih =>
    simp only [List.foldl_cons]
    have h1 : removeEventListener (p :: ps) p.1 p.2 = ps := by
      simp [removeEventListener]
    rw [h1]
    exact ih (List.nodup_cons.1 hnd).2

/-- C4 (amended): `$onDestroy` removes every listener recorded in the
`eventListeners` registry from the underlying element, but it does not clear
the registry — the registry still holds its entries afterwards. -/
theorem onDestroy_drains_element (propertyOutputs : List String) :
    (onDestroy (onInit propertyOutputs initialCtrlState)).eventListeners =
      (onInit propertyOutputs initialCtrlState).eventListeners ∧
    ∀ p ∈ (onInit propertyOutputs initialCtrlState).eventListeners,
      p ∉ (onDestroy (onInit propertyOutputs initialCtrlState)).elementListeners := by
  refine ⟨rfl, fun p hp => ?_⟩
  have hel : (onInit propertyOutputs initialCtrlState).elementListeners =
      attachList propertyOutputs 0 := by
    have h := (onInit_elementListeners propertyOutputs initialCtrlState
      (by simp [initialCtrlState])).1
    simpa [initialCtrlState] using h
  have hnd : (onInit propertyOutputs initialCtrlState).elementListeners.Nodup := by
    rw [hel]; exact attachList_nodup _ _
  exact not_mem_destroyFold _ _ p hnd hp

/-- Witness for C4 (amended): the one listener recorded for `save` is no
longer registered on the element after destruction. -/
theorem onDestroy_drains_element_witness :
    ("save", 0) ∉ (onDestroy (onInit ["save"] initialCtrlState)).elementListeners :=
  (onDestroy_drains_element ["save"]).2 ("save", 0) (by decide)

/-- C5 (amended): for pairwise-distinct declared output names, after
`$onDestroy` no listener attached during the instance's lifetime remains
registered on the element, and no event type fires any listener. -/
theorem onDestroy_removes_all_listeners (propertyOutputs : List String)
    (h : propertyOutputs.Nodup) :
    (onDestroy (onInit propertyOutputs initialCtrlState)).elementListeners = [] ∧
    ∀ eventType, firedListeners
      ((onDestroy (onInit propertyOutputs initialCtrlState)).elementListeners)
      eventType = [] := by
  have hel : (onInit propertyOutputs initialCtrlState).elementListeners =
      attachList propertyOutputs 0 := by
    have hx := (onInit_elementListeners propertyOutputs initialCtrlState
      (by simp [initialCtrlState])).1
    simpa [initialCtrlState] using hx
  have hreg : (onInit propertyOutputs initialCtrlState).eventListeners =
      attachList propertyOutputs 0 := by
    have hx := onInit_eventListeners propertyOutputs initialCtrlState h
      (by simp [initialCtrlState])
    simpa [initialCtrlState] using hx
  have hmain : (onDestroy (onInit propertyOutputs initialCtrlState)).elementListeners = [] := by
    show (onInit propertyOutputs initialCtrlState).eventListeners.foldl
      (fun ls entry => removeEventListener ls entry.1 entry.2)
      (onInit propertyOutputs initialCtrlState).elementListeners = []
    rw [hel, hreg]
    exact destroyFold_self _ (attachList_nodup _ _)
  exact ⟨hmain, fun eventType => by rw [hmain]; rfl⟩

/-- Witness for C5 (amended) at the single output `save`. -/
theorem onDestroy_removes_all_listeners_witness :
    (onDestroy (onInit ["save"] initialCtrlState)).elementListeners = [] :=
  (onDestroy_removes_all_listeners ["save"] (by decide)).1

/-- C9 (amended): for pairwise-distinct declared output names, `$onInit`
attaches exactly one listener to the element per output name, with that name
as its event type, and records that same listener in the registry under that
name. -/
theorem onInit_attaches_one_listener_per_output (propertyOutputs : List String)
    (h : propertyOutputs.Nodup) :
    ∀ output ∈ propertyOutputs,
      ((onInit propertyOutputs initialCtrlState).elementListeners.filter
        (fun p => p.1 == output)).length = 1 ∧
      ∃ l, List.lookup output (onInit propertyOutputs initialCtrlState).eventListeners =
          some l ∧
        (output, l) ∈ (onInit propertyOutputs initialCtrlState).elementListeners := by
  intro output hout
  have hel : (onInit propertyOutputs initialCtrlState).elementListeners =
      attachList propertyOutputs 0 := by
    have hx := (onInit_elementListeners propertyOutputs initialCtrlState
      (by simp [initialCtrlState])).1
    simpa [initialCtrlState] using hx
  have hreg : (onInit propertyOutputs initialCtrlState).eventListeners =
      attachList propertyOutputs 0 := by
    have hx := onInit_eventListeners propertyOutputs initialCtrlState h
      (by simp [initialCtrlState])
    simpa [initialCtrlState] using hx
  refine ⟨by rw [hel]; exact attachList_filter_length _ _ _ h hout, ?_⟩
  obtain ⟨l, hl, hmem⟩ := attachList_lookup propertyOutputs 0 output hout
  exact ⟨l, by rw [hreg]; exact hl, by rw [hel]; exact hmem⟩

/-- Witness for C9 (amended) at the single output `save`. -/
theorem onInit_attaches_one_listener_per_output_witness :
    ((onInit ["save"] initialCtrlState).elementListeners.filter
      (fun p => p.1 == "save")).length = 1 :=
  (onInit_attaches_one_listener_per_output ["save"] (by decide) "save" (by decide)).1

/-- C3 (amended): when the resolved input and output property names are
pairwise distinct, the bindings object has exactly N + M entries, every input
mapped to the optional one-way tag, every output mapped to the optional
callback-expression tag, and no entry carries any other (required) tag. -/
theorem mkBindings_correct (propertyInputs propertyOutputs : List String)
    (h : (propertyInputs ++ propertyOutputs).Nodup) :
    (mkBindings propertyInputs propertyOutputs).length =
      propertyInputs.length + propertyOutputs.length ∧
    (∀ input ∈ propertyInputs,
      List.lookup input (mkBindings propertyInputs propertyOutputs) = some "<?") ∧
    (∀ output ∈ propertyOutputs,
      List.lookup output (mkBindings propertyInputs propertyOutputs) = some "&?") ∧
    (∀ p ∈ mkBindings propertyInputs propertyOutputs, p.2 = "<?" ∨ p.2 = "&?") := by
  obtain ⟨hi, ho, hdisj⟩ := List.nodup_append.1 h
  have heq := mkBindings_eq_of_nodup propertyInputs propertyOutputs h
  refine ⟨by rw [heq]; simp, fun input hin => ?_, fun output hout => ?_, fun p hp => ?_⟩
  · rw [heq]
    exact lookup_append_of_some _ _ _ _ (lookup_map_tag propertyInputs "<?" input hin)
  · rw [heq]
    rw [lookup_append_of_forall_ne output _ _ ?_]
    · exact lookup_map_tag propertyOutputs "&?" output hout
    · intro p hp
      obtain ⟨y, hy, rfl⟩ := List.mem_map.1 hp
      intro hyo
      exact hdisj (hyo ▸ hy) hout
  · rw [heq] at hp
    rcases List.mem_append.1 hp with hp | hp
    · obtain ⟨y, _, rfl⟩ := List.mem_map.1 hp
      exact Or.inl rfl
    · obtain ⟨y, _, rfl⟩ := List.mem_map.1 hp
      exact Or.inr rfl

/-- Witness for C3 (amended) at one input `a` and one output `b`. -/
theorem mkBindings_correct_witness :
    (mkBindings ["a"] ["b"]).length = 1 + 1 ∧
    List.lookup "a" (mkBindings ["a"] ["b"]) = some "<?" :=
  ⟨(mkBindings_correct ["a"] ["b"] (by decide)).1,
   (mkBindings_correct ["a"] ["b"] (by decide)).2.1 "a" (by decide)⟩

/-- Witness for C10 at a failing construction: the display is mutated even
though the constructor throws. -/
theorem construct_sets_display_witness :
    (construct "my-el" { display := none, queryResult := none }).1.display =
      some "inline-block" ∧
    (construct "my-el" { display := none, queryResult := none }).2 =
      Except.error (noElementError "my-el") :=
  ⟨(construct_sets_display "my-el" _).1, (construct_sets_display "my-el" _).2 rfl⟩

end Ng1Wrapper
